import Mathlib

/-!
# PanWatch — Agent Scheduling & Execution Engine: verification development

Shallow embedding of the core of the PanWatch repository:

* `src/core/scheduler.py`   — `AgentScheduler` (trigger parsing, `_run_agent`)
* `src/models/market.py`    — `MarketDef.is_trading_time`, the three `MARKETS`
* `src/collectors/akshare_collector.py` — symbol translation, line parsing,
  batched quote fetching
* `server.py`               — seed data, `build_scheduler`, `trigger_agent`

Python strings are modelled as `List Char`; the Python string operations the
code uses (`str.split`, `str.replace`, `str.strip`, `str.rstrip`,
`str.startswith`, `str.endswith`, `in`) are given executable models below.
`int(...)` and `float(...)` are modelled over decimal literals (optional
surrounding whitespace, optional sign, digits, and for `float` an optional
fractional part and exponent); Python's underscore digit separators and the
`inf`/`nan` float literals are outside the modelled input domain.  Machine
floats are modelled as exact rationals: every claim settled here depends
only on order/zero-ness of parsed decimal literals, where the models agree.
Fallible Python code (raising `ValueError` / `AttributeError` / `TypeError`)
is modelled with `Except` / `Option`.
-/

namespace PanWatch

/-! ## Python string primitives -/

/-- Decimal value of a digit list (most significant first), as Python's
`int` accumulates it. -/
def decimalVal (s : List Char) : Nat :=
  s.foldl (fun n c => n * 10 + (c.toNat - 48)) 0

/-- Digits-only parse: `some` iff the list is nonempty and all ASCII digits. -/
def digitsToNat (s : List Char) : Option Nat :=
  if s ≠ [] ∧ s.all Char.isDigit then some (decimalVal s) else none

/-- Python `str.strip()` with no argument: drop whitespace from both ends. -/
def trimWS (s : List Char) : List Char :=
  ((s.dropWhile Char.isWhitespace).reverse.dropWhile Char.isWhitespace).reverse

/-- Sign-and-digits part of the `int(s)` model (after whitespace is
stripped): optional sign, then a nonempty run of ASCII digits. -/
def pyIntCore : List Char → Option Int
  | [] => none
  | c :: rest =>
    if c = '-' then (digitsToNat rest).map (fun n => -(n : Int))
    else if c = '+' then (digitsToNat rest).map (fun n => (n : Int))
    else (digitsToNat (c :: rest)).map (fun n => (n : Int))

/-- Model of Python `int(s)` on decimal literals: strip surrounding
whitespace, optional sign, then a nonempty run of ASCII digits. -/
def pyInt (s : List Char) : Option Int :=
  pyIntCore (trimWS s)

/-- Python `s.replace(pat, rep)`: replace every non-overlapping occurrence
of `pat`, scanning left to right (behaviour for nonempty `pat`, which is the
only way the source calls it). -/
def replaceAll (pat rep : List Char) : List Char → List Char
  | [] => []
  | c :: cs =>
    if _h : pat.isPrefixOf (c :: cs) ∧ 0 < pat.length then
      rep ++ replaceAll pat rep ((c :: cs).drop pat.length)
    else
      c :: replaceAll pat rep cs
termination_by s => s.length
decreasing_by
  · simp only [List.length_drop, List.length_cons]
    omega
  · simp only [List.length_cons]
    omega

/-- Helper for `splitWS`: `acc` holds the characters of the token currently
being read, in reverse order. -/
def splitWSAux : List Char → List Char → List (List Char)
  | [], acc => if acc = [] then [] else [acc.reverse]
  | c :: cs, acc =>
    if c.isWhitespace then
      if acc = [] then splitWSAux cs [] else acc.reverse :: splitWSAux cs []
    else splitWSAux cs (c :: acc)

/-- Python `s.split()` with no argument: split on runs of whitespace,
discarding empty fields. -/
def splitWS (s : List Char) : List (List Char) :=
  splitWSAux s []

/-- Python `s.split(sep)` for a one-character separator: split at every
occurrence, keeping empty fields (`"".split(sep) == [""]`). -/
def splitOnChar (sep : Char) : List Char → List (List Char)
  | [] => [[]]
  | c :: cs =>
    if c = sep then [] :: splitOnChar sep cs
    else
      match splitOnChar sep cs with
      | t :: ts => (c :: t) :: ts
      | [] => [[c]]

/-- Python `s.split(pat, 1)` restricted to the case the source uses:
returns the parts before and after the FIRST occurrence of `pat`, or `none`
when `pat` does not occur (in which case the source's 2-element unpacking
raises `ValueError`). -/
def splitOnce (pat : List Char) : List Char → Option (List Char × List Char)
  | [] => none
  | c :: cs =>
    if pat.isPrefixOf (c :: cs) then some ([], (c :: cs).drop pat.length)
    else
      match splitOnce pat cs with
      | some (pre, post) => some (c :: pre, post)
      | none => none

/-- Python `s.rstrip(chars)`: drop trailing characters belonging to `set`. -/
def rstripSet (s : List Char) (set : List Char) : List Char :=
  (s.reverse.dropWhile (fun c => set.contains c)).reverse

/-! ## Trigger parsing — `src/core/scheduler.py`

`AgentScheduler._parse_cron` splits the expression on whitespace, raises
`ValueError` unless there are exactly five fields, and hands the five raw
field strings to the (external) `apscheduler` `CronTrigger`, which
validates each field against the cron field grammar and raises
`ValueError` on an unrecognized expression; that validation is modelled
below from the spec's trigger grammar.
`AgentScheduler._parse_interval` removes every occurrence of the substring
`"interval:"` (Python `str.replace`), dispatches on the last character
(`s` / `m` / `h`, in that order), converts the remainder with `int(...)`
(which accepts any integer literal, including `0` and negatives), and hands
the integer to the external `IntervalTrigger`; a non-`s`/`m`/`h` suffix
raises `ValueError`.  The external trigger constructors of
`apscheduler` 3.x do not raise on zero or negative interval magnitudes, so
parse success is decided entirely by the code embedded here. -/

/-- Python exception kinds observed at the boundaries modelled here. -/
inductive PyError where
  | valueError (msg : String)
  | attributeError (msg : String)
  | typeError (msg : String)
deriving DecidableEq, Repr

/-- The five raw cron fields, as passed to `CronTrigger` (field content is
not validated by the repository's code). -/
structure CronFields where
  minute : List Char
  hour : List Char
  day : List Char
  month : List Char
  day_of_week : List Char
deriving DecidableEq, Repr

/-- The unit keyword chosen for `IntervalTrigger`. -/
inductive IntervalUnit where
  | seconds
  | minutes
  | hours
deriving DecidableEq, Repr

/-- A parsed trigger descriptor. -/
inductive Trigger where
  | cron (fields : CronFields)
  | interval (unit : IntervalUnit) (value : Int)
deriving DecidableEq, Repr

/-- A nonempty run of digits: a number in the cron field grammar. -/
def isCronNum (s : List Char) : Bool :=
  !s.isEmpty && s.all Char.isDigit

/-- Modelled from the spec: the base of a cron field expression in the
spec's trigger grammar (spec 4.1 and 6) — a wildcard `*`, a number, or a
numeric range a-b — as validated by the external apscheduler `CronTrigger`
constructor, whose source is not part of this repository.  The library's
month/weekday name aliases lie outside the spec's stated grammar and
outside this model. -/
def validCronBase (s : List Char) : Bool :=
  s == ['*'] || isCronNum s ||
    (match splitOnChar '-' s with
     | [a, b] => isCronNum a && isCronNum b
     | _ => false)

/-- Modelled from the spec: one expression of a cron field — a base with
an optional `/step` (spec 4.1: steps). -/
def validCronAtom (s : List Char) : Bool :=
  match splitOnChar '/' s with
  | [base] => validCronBase base
  | [base, step] => validCronBase base && isCronNum step
  | _ => false

/-- Modelled from the spec: a whole cron field — a comma-separated list of
expressions (spec 4.1: lists).  Numeric range bounds are not semantically
checked at parse time (spec 4.1: `minute=99` surfaces later as an
evaluator error, not here). -/
def validCronField (s : List Char) : Bool :=
  (splitOnChar ',' s).all validCronAtom

/-- All five fields pass the external constructor's validation. -/
def cronFieldsValid (f : CronFields) : Bool :=
  validCronField f.minute && validCronField f.hour && validCronField f.day
    && validCronField f.month && validCronField f.day_of_week

/-- `AgentScheduler._parse_cron` (scheduler.py lines 55-67): raises its
own `ValueError` unless the expression splits into exactly five
whitespace-separated fields, then constructs the external apscheduler
`CronTrigger`, which validates every field expression eagerly and raises
`ValueError` on an unrecognized one (modelled by `cronFieldsValid`, the
spec's field grammar). -/
def parse_cron (cron : List Char) : Except PyError CronFields :=
  match splitWS cron with
  | [p0, p1, p2, p3, p4] =>
    if cronFieldsValid ⟨p0, p1, p2, p3, p4⟩ then .ok ⟨p0, p1, p2, p3, p4⟩
    else .error (.valueError "Unrecognized expression")
  | _ => .error (.valueError ("无效的 cron 表达式: " ++ String.mk cron))

/-- `AgentScheduler._parse_interval` (scheduler.py lines 69-86).
`value[:-1]` is `List.dropLast`; `int(...)` raising `ValueError` is the
`none` branch of `pyInt`. -/
def parse_interval (expr : List Char) : Except PyError Trigger :=
  let value := replaceAll "interval:".toList [] expr
  if "s".toList.isSuffixOf value then
    match pyInt value.dropLast with
    | some n => .ok (.interval .seconds n)
    | none => .error (.valueError "invalid literal for int()")
  else if "m".toList.isSuffixOf value then
    match pyInt value.dropLast with
    | some n => .ok (.interval .minutes n)
    | none => .error (.valueError "invalid literal for int()")
  else if "h".toList.isSuffixOf value then
    match pyInt value.dropLast with
    | some n => .ok (.interval .hours n)
    | none => .error (.valueError "invalid literal for int()")
  else
    .error (.valueError ("无效的 interval 表达式: " ++ String.mk expr))

/-- The schedule-expression dispatch inside `AgentScheduler.register`
(scheduler.py lines 39-42): `interval:`-prefixed expressions go to
`_parse_interval`, everything else to `_parse_cron`. -/
def parse_schedule (schedule : List Char) : Except PyError Trigger :=
  if "interval:".toList.isPrefixOf schedule then
    parse_interval schedule
  else
    (parse_cron schedule).map Trigger.cron

/-! ## Seed agent configurations — `server.py` `seed_agents` -/

/-- One row of the `AgentConfig` table as seeded / queried by `server.py`. -/
structure AgentConfigRow where
  name : String
  display_name : String
  description : String
  enabled : Bool
  schedule : String
deriving DecidableEq, Repr

/-- The built-in agent configurations from `seed_agents` (server.py
lines 64-96). -/
def seedAgents : List AgentConfigRow :=
  [ { name := "daily_report", display_name := "盘后日报",
      description := "每日收盘后生成自选股日报，包含大盘概览、个股分析和明日关注",
      enabled := true, schedule := "30 15 * * 1-5" },
    { name := "intraday_monitor", display_name := "盘中监控",
      description := "交易时段定时分析自选股，异动时主动通知",
      enabled := false, schedule := "*/30 9-15 * * 1-5" },
    { name := "news_digest", display_name := "新闻速递",
      description := "定时抓取与持仓相关的新闻资讯并推送摘要",
      enabled := false, schedule := "0 */2 9-18 * * 1-5" },
    { name := "morning_brief", display_name := "开盘前瞻",
      description := "每日开盘前分析隔夜外盘和新闻，给出今日关注点",
      enabled := false, schedule := "0 9 * * 1-5" } ]

/-- The seeded schedule of the `news_digest` agent (six cron-like fields). -/
def newsDigestSchedule : String :=
  "0 */2 9-18 * * 1-5"

/-! ## Helper lemmas about the Python string models -/

theorem replaceAll_append_self (pat rep rest : List Char) (hne : pat ≠ []) :
    replaceAll pat rep (pat ++ rest) = rep ++ replaceAll pat rep rest := by
  match pat, hne with
  | p :: ps, _ =>
    rw [List.cons_append, replaceAll]
    rw [dif_pos]
    · rw [List.length_cons, List.drop_succ_cons, List.drop_left]
    · refine ⟨?_, by simp⟩
      rw [List.isPrefixOf_iff_prefix, ← List.cons_append]
      exact List.prefix_append _ _

theorem replaceAll_eq_self (p : List Char) (rep s : List Char) (c : Char)
    (hc : c ∉ s) : replaceAll (c :: p) rep s = s := by
  induction s with
  | nil => simp [replaceAll]
  | cons a as ih =>
    rw [replaceAll, dif_neg, ih (fun hmem => hc (List.mem_cons_of_mem a hmem))]
    intro hpre
    have := hpre.1
    rw [List.isPrefixOf_iff_prefix] at this
    rcases this with ⟨t, ht⟩
    simp only [List.cons_append, List.cons.injEq] at ht
    exact hc (ht.1 ▸ List.mem_cons_self a as)

theorem singleton_isSuffixOf_append_self (a : Char) (l : List Char) :
    [a].isSuffixOf (l ++ [a]) = true :=
  List.isSuffixOf_iff_suffix.mpr (List.suffix_append l [a])

theorem singleton_isSuffixOf_append_ne (a b : Char) (l : List Char)
    (hab : a ≠ b) : [a].isSuffixOf (l ++ [b]) = false := by
  rw [← Bool.not_eq_true, List.isSuffixOf_iff_suffix]
  intro hsuf
  rcases hsuf with ⟨t, ht⟩
  have h1 : (t ++ [a]).getLast? = some a := List.getLast?_concat t
  have h2 : (l ++ [b]).getLast? = some b := List.getLast?_concat l
  rw [ht, h2] at h1
  exact hab (Option.some.injEq _ _ ▸ h1).symm

theorem singleton_isSuffixOf_iff_getLast (c : Char) (v : List Char) :
    [c].isSuffixOf v = true ↔ v.getLast? = some c := by
  rw [List.isSuffixOf_iff_suffix]
  constructor
  · rintro ⟨t, rfl⟩
    exact List.getLast?_concat t
  · intro h
    rcases List.getLast?_eq_some_iff.mp h with ⟨l', rfl⟩
    exact List.suffix_append l' [c]

theorem dropWhile_eq_self_of_not (p : Char → Bool) (s : List Char)
    (h : ∀ c ∈ s, p c = false) : s.dropWhile p = s := by
  cases s with
  | nil => rfl
  | cons a as =>
    rw [List.dropWhile_cons, h a (List.mem_cons_self a as)]
    simp

theorem trimWS_eq_self (s : List Char)
    (h : ∀ c ∈ s, c.isWhitespace = false) : trimWS s = s := by
  unfold trimWS
  rw [dropWhile_eq_self_of_not _ s h,
    dropWhile_eq_self_of_not _ s.reverse (fun c hc => h c (List.mem_reverse.mp hc)),
    List.reverse_reverse]

theorem digit_not_whitespace (c : Char) (h : c.isDigit = true) :
    c.isWhitespace = false := by
  by_contra hw
  rw [Bool.not_eq_false] at hw
  simp only [Char.isWhitespace, Bool.or_eq_true, decide_eq_true_eq] at hw
  rcases hw with ((h1 | h1) | h1) | h1 <;> subst h1 <;> exact absurd h (by decide)

theorem pyInt_digits (ds : List Char) (hne : ds ≠ [])
    (hdig : ds.all Char.isDigit = true) :
    pyInt ds = some ((decimalVal ds : Nat) : Int) := by
  have hall : ∀ c ∈ ds, c.isDigit = true := by
    intro c hc
    exact List.all_eq_true.mp hdig c hc
  have htrim : trimWS ds = ds :=
    trimWS_eq_self ds (fun c hc => digit_not_whitespace c (hall c hc))
  rw [pyInt, htrim]
  match ds, hne, hdig, hall with
  | d :: rest, _, hdig, hall =>
    have hd : d.isDigit = true := hall d (List.mem_cons_self d rest)
    have hdm : d ≠ '-' := by
      intro hc; subst hc; exact absurd hd (by decide)
    have hdp : d ≠ '+' := by
      intro hc; subst hc; exact absurd hd (by decide)
    rw [pyIntCore, if_neg hdm, if_neg hdp, digitsToNat, if_pos ⟨by simp, hdig⟩]
    rfl

theorem interval_value_of_digits (ds : List Char) (_hne : ds ≠ [])
    (hdig : ds.all Char.isDigit = true) (u : Char) (hu : u ≠ 'i') :
    replaceAll "interval:".toList [] ("interval:".toList ++ (ds ++ [u]))
      = ds ++ [u] := by
  rw [replaceAll_append_self _ _ _ (by decide), List.nil_append]
  have hi : 'i' ∉ ds ++ [u] := by
    intro hmem
    rcases List.mem_append.mp hmem with hmem | hmem
    · have := List.all_eq_true.mp hdig 'i' hmem
      exact absurd this (by decide)
    · rcases List.mem_singleton.mp hmem with h
      exact hu h.symm
  exact replaceAll_eq_self _ _ _ _ hi

theorem parse_interval_0m :
    parse_interval "interval:0m".toList = .ok (.interval .minutes 0) := by
  have h : replaceAll "interval:".toList [] "interval:0m".toList
      = "0m".toList := by simp [replaceAll]
  rw [parse_interval]
  rw [h]
  rfl

theorem parse_interval_neg1h :
    parse_interval "interval:-1h".toList = .ok (.interval .hours (-1)) := by
  have h : replaceAll "interval:".toList [] "interval:-1h".toList
      = "-1h".toList := by simp [replaceAll]
  rw [parse_interval]
  rw [h]
  rfl

theorem parse_interval_5x :
    parse_interval "interval:5x".toList
      = .error (.valueError "无效的 interval 表达式: interval:5x") := by
  have h : replaceAll "interval:".toList [] "interval:5x".toList
      = "5x".toList := by simp [replaceAll]
  rw [parse_interval]
  rw [h]
  rfl

theorem parse_interval_double_prefix :
    parse_interval "interval:interval:3s".toList
      = .ok (.interval .seconds 3) := by
  have h : replaceAll "interval:".toList [] "interval:interval:3s".toList
      = "3s".toList := by simp [replaceAll]
  rw [parse_interval]
  rw [h]
  rfl

theorem parse_interval_last_cases (expr : List Char) :
    ((replaceAll "interval:".toList [] expr).getLast? = some 's' →
      parse_interval expr =
        (match pyInt (replaceAll "interval:".toList [] expr).dropLast with
         | some n => .ok (.interval .seconds n)
         | none => .error (.valueError "invalid literal for int()")))
    ∧ ((replaceAll "interval:".toList [] expr).getLast? = some 'm' →
      parse_interval expr =
        (match pyInt (replaceAll "interval:".toList [] expr).dropLast with
         | some n => .ok (.interval .minutes n)
         | none => .error (.valueError "invalid literal for int()")))
    ∧ ((replaceAll "interval:".toList [] expr).getLast? = some 'h' →
      parse_interval expr =
        (match pyInt (replaceAll "interval:".toList [] expr).dropLast with
         | some n => .ok (.interval .hours n)
         | none => .error (.valueError "invalid literal for int()")))
    ∧ ((∀ c, (replaceAll "interval:".toList [] expr).getLast? = some c →
          ¬(c = 's' ∨ c = 'm' ∨ c = 'h')) →
      parse_interval expr
        = .error (.valueError ("无效的 interval 表达式: " ++ String.mk expr))) := by
  refine ⟨?_, ?_, ?_, ?_⟩
  · intro h
    have hs : "s".toList.isSuffixOf (replaceAll "interval:".toList [] expr)
        = true := (singleton_isSuffixOf_iff_getLast 's' _).mpr h
    rw [parse_interval]
    rw [if_pos hs]
  · intro h
    have hsN : ¬ ("s".toList.isSuffixOf (replaceAll "interval:".toList [] expr)
        = true) := by
      intro htrue
      have := (singleton_isSuffixOf_iff_getLast 's' _).mp htrue
      rw [h] at this
      simp at this
    have hm : "m".toList.isSuffixOf (replaceAll "interval:".toList [] expr)
        = true := (singleton_isSuffixOf_iff_getLast 'm' _).mpr h
    rw [parse_interval]
    rw [if_neg hsN, if_pos hm]
  · intro h
    have hsN : ¬ ("s".toList.isSuffixOf (replaceAll "interval:".toList [] expr)
        = true) := by
      intro htrue
      have := (singleton_isSuffixOf_iff_getLast 's' _).mp htrue
      rw [h] at this
      simp at this
    have hmN : ¬ ("m".toList.isSuffixOf (replaceAll "interval:".toList [] expr)
        = true) := by
      intro htrue
      have := (singleton_isSuffixOf_iff_getLast 'm' _).mp htrue
      rw [h] at this
      simp at this
    have hh : "h".toList.isSuffixOf (replaceAll "interval:".toList [] expr)
        = true := (singleton_isSuffixOf_iff_getLast 'h' _).mpr h
    rw [parse_interval]
    rw [if_neg hsN, if_neg hmN, if_pos hh]
  · intro h
    have hsN : ¬ ("s".toList.isSuffixOf (replaceAll "interval:".toList [] expr)
        = true) := fun htrue =>
      h 's' ((singleton_isSuffixOf_iff_getLast 's' _).mp htrue) (Or.inl rfl)
    have hmN : ¬ ("m".toList.isSuffixOf (replaceAll "interval:".toList [] expr)
        = true) := fun htrue =>
      h 'm' ((singleton_isSuffixOf_iff_getLast 'm' _).mp htrue)
        (Or.inr (Or.inl rfl))
    have hhN : ¬ ("h".toList.isSuffixOf (replaceAll "interval:".toList [] expr)
        = true) := fun htrue =>
      h 'h' ((singleton_isSuffixOf_iff_getLast 'h' _).mp htrue)
        (Or.inr (Or.inr rfl))
    rw [parse_interval]
    rw [if_neg hsN, if_neg hmN, if_neg hhN]

/-! ## Claim theorems: trigger parsing -/

/-- C2 (counterexample): the claim asserts that `interval:0m` and
`interval:-1h` fail to parse; on the code both succeed, since
`_parse_interval` applies `int(...)` with no positivity check. -/
theorem c2_counterexample :
    parse_interval "interval:0m".toList = .ok (.interval .minutes 0)
    ∧ parse_interval "interval:-1h".toList = .ok (.interval .hours (-1)) :=
  ⟨parse_interval_0m, parse_interval_neg1h⟩

/-- C2 (amended): for every `interval:<n><unit>` with `n` a nonempty digit
string and unit in s/m/h, parsing succeeds and yields the period `n` in the
stated unit.  In general the parser strips EVERY occurrence of the
substring `interval:` (Python `str.replace`) and dispatches on the last
remaining character: when it is one of s/m/h, the result is decided by
`int(...)` on the remainder — succeeding on any integer literal, so
`interval:0m` yields period 0 and `interval:-1h` yields period -1 (there
is no positivity check), and failing exactly when the remainder is not an
integer literal — and when it is any other character (or absent), parsing
fails with the format error (`interval:5x`).  Because every occurrence is
stripped, `interval:interval:3s` parses to 3 seconds rather than
failing. -/
theorem c2_interval_parse (ds : List Char) (hne : ds ≠ [])
    (hdig : ds.all Char.isDigit = true) (u : Char) (unit : IntervalUnit)
    (hu : (u = 's' ∧ unit = .seconds) ∨ (u = 'm' ∧ unit = .minutes)
          ∨ (u = 'h' ∧ unit = .hours)) :
    parse_interval ("interval:".toList ++ (ds ++ [u]))
        = .ok (.interval unit ((decimalVal ds : Nat) : Int))
    ∧ (∀ expr : List Char, ∀ u' : Char, ∀ unit' : IntervalUnit,
        ((u' = 's' ∧ unit' = IntervalUnit.seconds)
          ∨ (u' = 'm' ∧ unit' = IntervalUnit.minutes)
          ∨ (u' = 'h' ∧ unit' = IntervalUnit.hours)) →
        (replaceAll "interval:".toList [] expr).getLast? = some u' →
        parse_interval expr =
          (match pyInt (replaceAll "interval:".toList [] expr).dropLast with
           | some n => .ok (.interval unit' n)
           | none => .error (.valueError "invalid literal for int()")))
    ∧ (∀ expr : List Char,
        (∀ c, (replaceAll "interval:".toList [] expr).getLast? = some c →
          ¬(c = 's' ∨ c = 'm' ∨ c = 'h')) →
        parse_interval expr
          = .error (.valueError ("无效的 interval 表达式: " ++ String.mk expr)))
    ∧ parse_interval "interval:0m".toList = .ok (.interval .minutes 0)
    ∧ parse_interval "interval:-1h".toList = .ok (.interval .hours (-1))
    ∧ parse_interval "interval:5x".toList
        = .error (.valueError "无效的 interval 表达式: interval:5x")
    ∧ parse_interval "interval:interval:3s".toList
        = .ok (.interval .seconds 3) := by
  refine ⟨?_, ?_, ?_, parse_interval_0m, parse_interval_neg1h,
    parse_interval_5x, parse_interval_double_prefix⟩
  · have hpy : pyInt ds = some ((decimalVal ds : Nat) : Int) :=
      pyInt_digits ds hne hdig
    rcases hu with ⟨h, hunit⟩ | ⟨h, hunit⟩ | ⟨h, hunit⟩ <;>
      subst h <;> subst hunit
    · have hval := interval_value_of_digits ds hne hdig 's' (by decide)
      have hlast : (replaceAll "interval:".toList []
          ("interval:".toList ++ (ds ++ ['s']))).getLast? = some 's' := by
        rw [hval]
        exact List.getLast?_concat ds
      rw [(parse_interval_last_cases _).1 hlast, hval,
        List.dropLast_concat, hpy]
    · have hval := interval_value_of_digits ds hne hdig 'm' (by decide)
      have hlast : (replaceAll "interval:".toList []
          ("interval:".toList ++ (ds ++ ['m']))).getLast? = some 'm' := by
        rw [hval]
        exact List.getLast?_concat ds
      rw [(parse_interval_last_cases _).2.1 hlast, hval,
        List.dropLast_concat, hpy]
    · have hval := interval_value_of_digits ds hne hdig 'h' (by decide)
      have hlast : (replaceAll "interval:".toList []
          ("interval:".toList ++ (ds ++ ['h']))).getLast? = some 'h' := by
        rw [hval]
        exact List.getLast?_concat ds
      rw [(parse_interval_last_cases _).2.2.1 hlast, hval,
        List.dropLast_concat, hpy]
  · rintro expr u' unit' (⟨rfl, rfl⟩ | ⟨rfl, rfl⟩ | ⟨rfl, rfl⟩) hlast
    · exact (parse_interval_last_cases expr).1 hlast
    · exact (parse_interval_last_cases expr).2.1 hlast
    · exact (parse_interval_last_cases expr).2.2.1 hlast
  · intro expr h
    exact (parse_interval_last_cases expr).2.2.2 h

/-- C2 witness: the amended theorem applied at `interval:3s`, together
with its double-occurrence conclusion. -/
theorem c2_interval_parse_witness :
    parse_interval ("interval:".toList ++ (['3'] ++ ['s']))
        = .ok (.interval .seconds 3)
    ∧ parse_interval "interval:interval:3s".toList
        = .ok (.interval .seconds 3) :=
  ⟨(c2_interval_parse ['3'] (by decide) (by decide) 's' .seconds
      (.inl ⟨rfl, rfl⟩)).1,
    (c2_interval_parse ['3'] (by decide) (by decide) 's' .seconds
      (.inl ⟨rfl, rfl⟩)).2.2.2.2.2.2⟩

theorem parse_cron_of_five (s a b c d e : List Char)
    (hl : splitWS s = [a, b, c, d, e])
    (hv : cronFieldsValid ⟨a, b, c, d, e⟩ = true) :
    parse_cron s = .ok ⟨a, b, c, d, e⟩ := by
  simp only [parse_cron, hl]
  rw [if_pos hv]

theorem parse_cron_invalid (s a b c d e : List Char)
    (hl : splitWS s = [a, b, c, d, e])
    (hv : cronFieldsValid ⟨a, b, c, d, e⟩ = false) :
    parse_cron s = .error (.valueError "Unrecognized expression") := by
  simp only [parse_cron, hl]
  rw [if_neg (by rw [hv]; exact Bool.false_ne_true)]

theorem parse_cron_of_not_five (s : List Char)
    (h : (splitWS s).length ≠ 5) :
    parse_cron s
      = .error (.valueError ("无效的 cron 表达式: " ++ String.mk s)) := by
  unfold parse_cron
  rcases hl : splitWS s with _ | ⟨a, _ | ⟨b, _ | ⟨c, _ | ⟨d, _ | ⟨e, _ | ⟨f, rest⟩⟩⟩⟩⟩⟩ <;>
    first
      | rfl
      | (exact absurd (by rw [hl]; rfl) h)

/-- C3 (counterexample): the claim asserts that parsing succeeds for EVERY
schedule string splitting into exactly five whitespace-separated fields;
but `_parse_cron` ends by constructing the external apscheduler
`CronTrigger`, which validates field expressions eagerly, so the
five-field string `"a b c d e"` fails with its `ValueError`. -/
theorem c3_counterexample :
    (splitWS "a b c d e".toList).length = 5
    ∧ parse_schedule "a b c d e".toList
        = .error (.valueError "Unrecognized expression") := by
  constructor <;> rfl

/-- C3 (amended): for every schedule string without the `interval:`
prefix, parsing fails with `_parse_cron`'s own format error whenever the
string does not split into exactly five whitespace-separated fields — in
particular the six-field seed schedule of the `news_digest` agent fails —
and with exactly five fields the count check passes and the outcome is the
external `CronTrigger`'s field validation: success when every field is a
valid cron field expression (wildcard, number or numeric range, optional
step, comma-lists of these), `ValueError` otherwise (e.g. `"a b c d e"`). -/
theorem c3_cron_field_count (s : List Char)
    (hnp : "interval:".toList.isPrefixOf s = false) :
    ((splitWS s).length ≠ 5 →
        parse_schedule s
          = .error (.valueError ("无效的 cron 表达式: " ++ String.mk s)))
    ∧ (∀ a b c d e, splitWS s = [a, b, c, d, e] →
        (cronFieldsValid ⟨a, b, c, d, e⟩ = true →
          parse_schedule s = .ok (.cron ⟨a, b, c, d, e⟩))
        ∧ (cronFieldsValid ⟨a, b, c, d, e⟩ = false →
          parse_schedule s
            = .error (.valueError "Unrecognized expression")))
    ∧ (splitWS newsDigestSchedule.toList).length = 6
    ∧ parse_schedule newsDigestSchedule.toList
        = .error (.valueError ("无效的 cron 表达式: " ++ newsDigestSchedule)) := by
  have hps : parse_schedule s = (parse_cron s).map Trigger.cron := by
    rw [parse_schedule, hnp]
    rfl
  refine ⟨?_, ?_, by rfl, by rfl⟩
  · intro hne
    rw [hps, parse_cron_of_not_five s hne]
    rfl
  · intro a b c d e hl
    constructor
    · intro hv
      rw [hps, parse_cron_of_five s a b c d e hl hv]
      rfl
    · intro hv
      rw [hps, parse_cron_invalid s a b c d e hl hv]
      rfl

/-- C3 witness: the theorem applied at the five-field seed schedule of
`daily_report` (all fields valid, parses), at a five-field string with
unrecognized fields (fails), and at the six-field `news_digest` seed
schedule (fails the count check). -/
theorem c3_cron_field_count_witness :
    parse_schedule "30 15 * * 1-5".toList
      = .ok (.cron ⟨"30".toList, "15".toList, "*".toList, "*".toList,
          "1-5".toList⟩)
    ∧ parse_schedule "a b c d e".toList
        = .error (.valueError "Unrecognized expression")
    ∧ parse_schedule "0 */2 9-18 * * 1-5".toList
        = .error (.valueError
            ("无效的 cron 表达式: " ++ "0 */2 9-18 * * 1-5")) :=
  ⟨((c3_cron_field_count "30 15 * * 1-5".toList (by decide)).2.1
      "30".toList "15".toList "*".toList "*".toList "1-5".toList
      (by decide)).1 (by decide),
    ((c3_cron_field_count "a b c d e".toList (by decide)).2.1
      "a".toList "b".toList "c".toList "d".toList "e".toList
      (by decide)).2 (by decide),
    (c3_cron_field_count "0 */2 9-18 * * 1-5".toList (by decide)).1
      (by decide)⟩

/-! ## Trading calendar — `src/models/market.py`

`MarketDef.is_trading_time` first converts the instant to the market's
local timezone with `datetime.astimezone` (Python standard library,
external to the repository); the embedded function therefore takes the
already-converted LOCAL instant, reduced to the pair the code then reads:
`dt.weekday()` (Monday = 0 … Sunday = 6) and `dt.time()` (local wall-clock
time of day).  `datetime.time` values compare lexicographically on
(hour, minute, second, microsecond), which is order-isomorphic to
microseconds-since-midnight, the representation used here. -/

/-- `MarketCode` (market.py lines 7-10). -/
inductive MarketCode where
  | CN
  | HK
  | US
deriving DecidableEq, Repr

/-- A local wall-clock `datetime.time` as microseconds since midnight. -/
def timeUs (h m : Nat) : Nat :=
  ((h * 60 + m) * 60) * 1000000

/-- `TradingSession` (market.py lines 13-17).  The source's `end` field is
a Lean keyword and is called `stop` here. -/
structure TradingSession where
  start : Nat
  stop : Nat
deriving DecidableEq, Repr

/-- `MarketDef` (market.py lines 20-47), minus the `get_tz` helper whose
`ZoneInfo` lookup is external. -/
structure MarketDef where
  code : MarketCode
  name : String
  timezone : String
  sessions : List TradingSession
  symbol_pattern : String
deriving DecidableEq, Repr

/-- The weekday/time-of-day pair `is_trading_time` reads off the
locally-converted `datetime`. -/
structure LocalDT where
  weekday : Nat
  tod : Nat
deriving DecidableEq, Repr

/-- `MarketDef.is_trading_time` (market.py lines 32-47) after the
`astimezone` conversion: weekends are closed, otherwise the local
time-of-day must fall in some session, both bounds inclusive. -/
def MarketDef.is_trading_time (m : MarketDef) (dt : LocalDT) : Bool :=
  if 5 ≤ dt.weekday then false
  else m.sessions.any fun s =>
    decide (s.start ≤ dt.tod) && decide (dt.tod ≤ s.stop)

/-- The predefined `MARKETS` dict (market.py lines 51-81). -/
def MARKETS : MarketCode → MarketDef
  | .CN =>
    { code := .CN, name := "A股", timezone := "Asia/Shanghai",
      sessions := [⟨timeUs 9 30, timeUs 11 30⟩, ⟨timeUs 13 0, timeUs 15 0⟩],
      symbol_pattern := "^[036]\\d\x7b5\x7d$" }
  | .HK =>
    { code := .HK, name := "港股", timezone := "Asia/Hong_Kong",
      sessions := [⟨timeUs 9 30, timeUs 12 0⟩, ⟨timeUs 13 0, timeUs 16 0⟩],
      symbol_pattern := "^\\d\x7b5\x7d$" }
  | .US =>
    { code := .US, name := "美股", timezone := "America/New_York",
      sessions := [⟨timeUs 9 30, timeUs 16 0⟩],
      symbol_pattern := "^[A-Z]\x7b1,5\x7d$" }

/-- C4: for each of the three predefined markets and every local instant,
`is_trading_time` is false on Saturday/Sunday, and on weekdays is true
exactly when the local time-of-day lies in one of the market's session
windows with both bounds inclusive; at each session boundary it is true,
and one second outside each boundary it is false. -/
theorem c4_is_trading_time (dt : LocalDT) :
    (∀ c : MarketCode, 5 ≤ dt.weekday → (MARKETS c).is_trading_time dt = false)
    ∧ (dt.weekday < 5 →
        (((MARKETS .CN).is_trading_time dt = true ↔
            (timeUs 9 30 ≤ dt.tod ∧ dt.tod ≤ timeUs 11 30)
            ∨ (timeUs 13 0 ≤ dt.tod ∧ dt.tod ≤ timeUs 15 0))
        ∧ ((MARKETS .HK).is_trading_time dt = true ↔
            (timeUs 9 30 ≤ dt.tod ∧ dt.tod ≤ timeUs 12 0)
            ∨ (timeUs 13 0 ≤ dt.tod ∧ dt.tod ≤ timeUs 16 0))
        ∧ ((MARKETS .US).is_trading_time dt = true ↔
            (timeUs 9 30 ≤ dt.tod ∧ dt.tod ≤ timeUs 16 0))))
    ∧ ((MARKETS .CN).is_trading_time ⟨0, timeUs 9 30⟩ = true
        ∧ (MARKETS .CN).is_trading_time ⟨0, timeUs 9 30 - 1000000⟩ = false
        ∧ (MARKETS .CN).is_trading_time ⟨0, timeUs 11 30⟩ = true
        ∧ (MARKETS .CN).is_trading_time ⟨0, timeUs 11 30 + 1000000⟩ = false
        ∧ (MARKETS .CN).is_trading_time ⟨0, timeUs 13 0⟩ = true
        ∧ (MARKETS .CN).is_trading_time ⟨0, timeUs 13 0 - 1000000⟩ = false
        ∧ (MARKETS .CN).is_trading_time ⟨0, timeUs 15 0⟩ = true
        ∧ (MARKETS .CN).is_trading_time ⟨0, timeUs 15 0 + 1000000⟩ = false
        ∧ (MARKETS .HK).is_trading_time ⟨0, timeUs 12 0⟩ = true
        ∧ (MARKETS .HK).is_trading_time ⟨0, timeUs 12 0 + 1000000⟩ = false
        ∧ (MARKETS .US).is_trading_time ⟨0, timeUs 9 30⟩ = true
        ∧ (MARKETS .US).is_trading_time ⟨0, timeUs 16 0⟩ = true
        ∧ (MARKETS .US).is_trading_time ⟨0, timeUs 16 0 + 1000000⟩ = false
        ∧ (MARKETS .CN).is_trading_time ⟨5, timeUs 10 0⟩ = false
        ∧ (MARKETS .US).is_trading_time ⟨6, timeUs 10 0⟩ = false) := by
  refine ⟨?_, ?_, by decide⟩
  · intro c hw
    cases c <;> simp [MARKETS, MarketDef.is_trading_time, hw]
  · intro hw
    have hw' : ¬ 5 ≤ dt.weekday := by omega
    refine ⟨?_, ?_, ?_⟩ <;>
      simp [MARKETS, MarketDef.is_trading_time, hw', List.any_cons, List.any_nil]

/-- C4 witness: the weekday characterization applied at Monday 09:30:00
local time for the CN market, and the weekend clause at a Saturday. -/
theorem c4_is_trading_time_witness :
    (MARKETS .CN).is_trading_time ⟨0, timeUs 9 30⟩ = true
    ∧ (MARKETS .HK).is_trading_time ⟨5, timeUs 10 0⟩ = false :=
  ⟨(((c4_is_trading_time ⟨0, timeUs 9 30⟩).2.1 (by decide)).1).mpr
      (Or.inl ⟨le_refl _, by decide⟩),
    (c4_is_trading_time ⟨5, timeUs 10 0⟩).1 .HK (by decide)⟩

/-! ## Quote collector — `src/collectors/akshare_collector.py`

The HTTP call (`httpx.Client().get` plus the GBK decode) is modelled as a
`transport` parameter returning either the decoded response body or an
exception; everything after it is embedded from the source.  The
`timestamp=datetime.now()` field of the produced records reads the wall
clock and is not modelled. -/

/-- Python `pat in s` for a nonempty pattern string. -/
def containsSub (pat s : List Char) : Bool :=
  (splitOnce pat s).isSome

/-- Fractional-literal part of the `float(s)` model: digits with an
optional decimal point (Python requires at least one digit overall). -/
def parseMantissa (s : List Char) : Option Rat :=
  match splitOnChar '.' s with
  | [intPart] =>
      if intPart ≠ [] ∧ intPart.all Char.isDigit then
        some ((decimalVal intPart : Nat) : Rat)
      else none
  | [intPart, fracPart] =>
      if intPart ++ fracPart ≠ [] ∧ (intPart ++ fracPart).all Char.isDigit then
        some ((decimalVal intPart : Nat)
          + ((decimalVal fracPart : Nat) : Rat) / (10 : Rat) ^ fracPart.length)
      else none
  | _ => none

/-- Mantissa with an optional leading sign. -/
def parseSignedMantissa : List Char → Option Rat
  | [] => none
  | c :: rest =>
    if c = '-' then (parseMantissa rest).map Neg.neg
    else if c = '+' then parseMantissa rest
    else parseMantissa (c :: rest)

/-- Model of Python `float(s)` on finite decimal literals: surrounding
whitespace, optional sign, digits with optional decimal point, optional
`e`/`E` exponent.  (`inf`/`nan` literals and underscore separators are
outside the modelled domain.)  The value is the exact rational the literal
denotes. -/
def pyFloat (s : List Char) : Option Rat :=
  let t := (trimWS s).map fun c => if c = 'E' then 'e' else c
  match splitOnChar 'e' t with
  | [m] => parseSignedMantissa m
  | [m, e] => do
      let mv ← parseSignedMantissa m
      let ev ← pyIntCore e
      some (mv * (10 : Rat) ^ ev)
  | _ => none

/-- Python `float(s or 0)`: an empty field is the falsy string, so `or`
substitutes the integer `0`. -/
def pyFloatOrZero (s : List Char) : Option Rat :=
  if s = [] then some 0 else pyFloat s

/-- The dict built by `_parse_tencent_line` (collector lines 61-73). -/
structure TencentQuote where
  name : List Char
  symbol : List Char
  current_price : Rat
  prev_close : Rat
  open_price : Rat
  volume : Rat
  change_amount : Rat
  change_pct : Rat
  high_price : Rat
  low_price : Rat
  turnover : Rat
deriving DecidableEq, Repr

/-- The turnover extraction of `_parse_tencent_line` (collector
lines 46-53): if `parts[35]` contains `/` and splits into at least three
components, `float` the third; any parse failure leaves the 0.0 default. -/
def tencentTurnover (p35 : List Char) : Rat :=
  if p35.contains '/' then
    let tp := splitOnChar '/' p35
    if 3 ≤ tp.length then (pyFloat (tp.getD 2 [])).getD 0 else 0
  else 0

/-- The symbol normalization of `_parse_tencent_line` (collector
lines 55-59): strip a `.`-suffix unless the identifier starts with `.`
(reserved for index identifiers). -/
def tencentSymbol35 (sym0 : List Char) : List Char :=
  if sym0.contains '.' && !(List.isPrefixOf ['.'] sym0) then
    (splitOnChar '.' sym0).headD []
  else sym0

/-- The record-building tail of `_parse_tencent_line` (collector
lines 42-76), applied to the `~`-split field list: fewer than 35 fields is
rejected explicitly; exactly 35 makes the `parts[35]` access raise
`IndexError`, which the enclosing `except` turns into `None`; a
`float(...)` `ValueError` on any structural field likewise yields `None`. -/
def parse_tencent_fields (parts : List (List Char)) : Option TencentQuote :=
  if parts.length < 35 then none
  else
    match parts.get? 35 with
    | none => none
    | some p35 => do
        let current_price ← pyFloatOrZero (parts.getD 3 [])
        let prev_close ← pyFloatOrZero (parts.getD 4 [])
        let open_price ← pyFloatOrZero (parts.getD 5 [])
        let volume ← pyFloatOrZero (parts.getD 6 [])
        let change_amount ← pyFloatOrZero (parts.getD 31 [])
        let change_pct ← pyFloatOrZero (parts.getD 32 [])
        let high_price ← pyFloatOrZero (parts.getD 33 [])
        let low_price ← pyFloatOrZero (parts.getD 34 [])
        some { name := parts.getD 1 [], symbol := tencentSymbol35 (parts.getD 2 []),
               current_price := current_price, prev_close := prev_close,
               open_price := open_price, volume := volume,
               change_amount := change_amount, change_pct := change_pct,
               high_price := high_price, low_price := low_price,
               turnover := tencentTurnover p35 }

/-- `_parse_tencent_line` (collector lines 34-76).  A `ValueError` or
`IndexError` anywhere in the `try` block — the 1-element unpack when `="`
is absent, the `parts[35]` access, or a `float(...)` failure — is caught
and yields `None`. -/
def parse_tencent_line (line : List Char) : Option TencentQuote :=
  if containsSub "=\"\"".toList line || (trimWS line).isEmpty then none
  else
    match splitOnce "=\"".toList line with
    | none => none
    | some (_, v0) =>
      parse_tencent_fields (splitOnChar '~' (rstripSet v0 ['"', ';']))

/-- The parse-and-filter loop of `_fetch_tencent_quotes` (collector
lines 88-93): strip the body, split on `;`, keep a parsed record iff its
`current_price` is strictly positive. -/
def parse_tencent_content (content : List Char) : List TencentQuote :=
  (splitOnChar ';' (trimWS content)).filterMap fun line =>
    match parse_tencent_line line with
    | some q => if 0 < q.current_price then some q else none
    | none => none

/-- `_fetch_tencent_quotes` (collector lines 79-93), with the HTTP call
abstracted as `transport`. -/
def fetch_tencent_quotes (symbols : List (List Char))
    (transport : List (List Char) → Except String (List Char)) :
    Except String (List TencentQuote) :=
  if symbols = [] then .ok []
  else do
    let content ← transport symbols
    pure (parse_tencent_content content)

/-- `_tencent_symbol` (collector lines 23-31). -/
def tencent_symbol (symbol : List Char) (market : MarketCode) : List Char :=
  if market = .HK then "hk".toList ++ symbol
  else if market = .US then "us".toList ++ symbol
  else
    (if List.isPrefixOf "6".toList symbol || List.isPrefixOf "000".toList symbol
     then "sh".toList else "sz".toList) ++ symbol

/-- The predefined `CN_INDICES` (collector lines 16-20):
(symbol, display name, exchange prefix). -/
def CN_INDICES : List (List Char × String × List Char) :=
  [("000001".toList, "上证指数", "sh".toList),
   ("399001".toList, "深证成指", "sz".toList),
   ("399006".toList, "创业板指", "sz".toList)]

/-- `StockData` (market.py lines 84-99) minus the wall-clock timestamp. -/
structure StockData where
  symbol : List Char
  name : List Char
  market : MarketCode
  current_price : Rat
  change_pct : Rat
  change_amount : Rat
  volume : Rat
  turnover : Rat
  open_price : Rat
  high_price : Rat
  low_price : Rat
  prev_close : Rat
deriving DecidableEq, Repr

/-- `IndexData` (market.py lines 102-113) minus the wall-clock timestamp. -/
structure IndexData where
  symbol : List Char
  name : List Char
  market : MarketCode
  current_price : Rat
  change_pct : Rat
  change_amount : Rat
  volume : Rat
  turnover : Rat
deriving DecidableEq, Repr

/-- The `StockData(...)` construction shared by `_get_cn_stocks`,
`_get_hk_stocks` and `_get_us_stocks`. -/
def toStockData (market : MarketCode) (item : TencentQuote) : StockData :=
  { symbol := item.symbol, name := item.name, market := market,
    current_price := item.current_price, change_pct := item.change_pct,
    change_amount := item.change_amount, volume := item.volume,
    turnover := item.turnover, open_price := item.open_price,
    high_price := item.high_price, low_price := item.low_price,
    prev_close := item.prev_close }

/-- The `IndexData(...)` construction of `_get_cn_index`. -/
def toIndexData (market : MarketCode) (item : TencentQuote) : IndexData :=
  { symbol := item.symbol, name := item.name, market := market,
    current_price := item.current_price, change_pct := item.change_pct,
    change_amount := item.change_amount, volume := item.volume,
    turnover := item.turnover }

/-- `AkshareCollector._get_cn_stocks` / `_get_hk_stocks` /
`_get_us_stocks` (collector lines 153-232): translate the symbols, fetch
in one batch, and on any transport exception log and return `[]`. -/
def get_market_stocks (market : MarketCode) (symbols : List (List Char))
    (transport : List (List Char) → Except String (List Char)) :
    List StockData :=
  match fetch_tencent_quotes (symbols.map (fun s => tencent_symbol s market))
      transport with
  | .error _ => []
  | .ok items => items.map (toStockData market)

/-- `AkshareCollector.get_stock_data` (collector lines 121-128). -/
def get_stock_data (market : MarketCode) (symbols : List (List Char))
    (transport : List (List Char) → Except String (List Char)) :
    List StockData :=
  match market with
  | .CN => get_market_stocks .CN symbols transport
  | .HK => get_market_stocks .HK symbols transport
  | .US => get_market_stocks .US symbols transport

/-- `AkshareCollector._get_cn_index` (collector lines 130-151). -/
def get_cn_index
    (transport : List (List Char) → Except String (List Char)) :
    List IndexData :=
  match fetch_tencent_quotes (CN_INDICES.map (fun t => t.2.2 ++ t.1))
      transport with
  | .error _ => []
  | .ok items => items.map (toIndexData .CN)

/-- `AkshareCollector.get_index_data` (collector lines 116-119): indices
exist only for the CN market. -/
def get_index_data (market : MarketCode)
    (transport : List (List Char) → Except String (List Char)) :
    List IndexData :=
  match market with
  | .CN => get_cn_index transport
  | _ => []

/-! ## Claim theorems: collector -/

/-- C7: symbol translation for the CN market prefixes `sh` when the symbol
starts with `6` or with `000` and `sz` otherwise; HK always prefixes `hk`
and US always prefixes `us`; `600519` (CN) gives `sh600519` and `00700`
(HK) gives `hk00700`. -/
theorem c7_tencent_symbol (s : List Char) :
    tencent_symbol s .HK = "hk".toList ++ s
    ∧ tencent_symbol s .US = "us".toList ++ s
    ∧ (s.take 1 = ['6'] ∨ s.take 3 = "000".toList →
        tencent_symbol s .CN = "sh".toList ++ s)
    ∧ (s.take 1 ≠ ['6'] ∧ s.take 3 ≠ "000".toList →
        tencent_symbol s .CN = "sz".toList ++ s)
    ∧ tencent_symbol "600519".toList .CN = "sh600519".toList
    ∧ tencent_symbol "00700".toList .HK = "hk00700".toList := by
  refine ⟨rfl, rfl, ?_, ?_, by decide, by decide⟩
  · intro h
    have hcond : ['6'] <+: s ∨ ['0', '0', '0'] <+: s := by
      rcases h with h | h
      · exact Or.inl (List.prefix_iff_eq_take.mpr (by simpa using h.symm))
      · exact Or.inr (List.prefix_iff_eq_take.mpr (by simpa using h.symm))
    simp [tencent_symbol, hcond]
  · intro h
    have hcond : ¬ (['6'] <+: s ∨ ['0', '0', '0'] <+: s) := by
      rintro (hh | hh)
      · exact h.1 (by simpa using (List.prefix_iff_eq_take.mp hh).symm)
      · exact h.2 (by simpa using (List.prefix_iff_eq_take.mp hh).symm)
    simp [tencent_symbol, hcond]

/-- C7 witness: the CN prefix clauses applied at `600519` and `300750`. -/
theorem c7_tencent_symbol_witness :
    tencent_symbol "600519".toList .CN = "sh".toList ++ "600519".toList
    ∧ tencent_symbol "300750".toList .CN = "sz".toList ++ "300750".toList :=
  ⟨(c7_tencent_symbol "600519".toList).2.2.1 (by decide),
    (c7_tencent_symbol "300750".toList).2.2.2.1 (by decide)⟩

/-- C8: when the batched quote request fails at the transport level, both
public collector methods return the empty sequence for every market and
symbol list; being total functions into `List`, they can propagate no
exception. -/
theorem c8_transport_failure (market : MarketCode)
    (symbols : List (List Char)) (e : String) :
    get_stock_data market symbols (fun _ => .error e) = []
    ∧ get_index_data market (fun _ => .error e) = [] := by
  constructor
  · cases market <;> cases symbols <;>
      simp [get_stock_data, get_market_stocks, fetch_tencent_quotes,
        Except.bind]
  · cases market <;>
      simp [get_index_data, get_cn_index, fetch_tencent_quotes,
        CN_INDICES, Except.bind]

/-- A well-formed response line: 37 `~`-fields, current price 2,
turnover sub-field `1/1/9`. -/
def demoLine : List Char :=
  "x=\"1~N~S~2~1~1~1~~~~~~~~~~~~~~~~~~~~~~~~~1~1~1~1~1/1/9~z\"".toList

/-- The record `demoLine` parses to. -/
def demoQuote : TencentQuote :=
  { name := ['N'], symbol := ['S'], current_price := 2, prev_close := 1,
    open_price := 1, volume := 1, change_amount := 1, change_pct := 1,
    high_price := 1, low_price := 1, turnover := 9 }

/-- A two-line response body: one good line, one no-data line. -/
def demoContent : List Char :=
  demoLine ++ ";".toList ++ "v_e=\"\"".toList

theorem parse_line_skip_nodata (line : List Char)
    (h : containsSub "=\"\"".toList line = true) :
    parse_tencent_line line = none := by
  have hc : (containsSub "=\"\"".toList line || (trimWS line).isEmpty) = true := by
    rw [h, Bool.true_or]
  rw [parse_tencent_line, if_pos hc]

theorem parse_line_skip_empty (line : List Char)
    (h : (trimWS line).isEmpty = true) :
    parse_tencent_line line = none := by
  have hc : (containsSub "=\"\"".toList line || (trimWS line).isEmpty) = true := by
    rw [h, Bool.or_true]
  rw [parse_tencent_line, if_pos hc]

/-- C5: the line parser skips empty lines, `=""` no-data lines and lines
with fewer structural fields than required (the 35-field minimum check plus
the `parts[35]` access make 36 the effective minimum), and a parsed record
appears in the result sequence exactly when its resolved current price is
strictly positive. -/
theorem c5_line_filter (content : List Char) :
    (∀ line : List Char,
       ((trimWS line).isEmpty = true → parse_tencent_line line = none)
       ∧ (containsSub "=\"\"".toList line = true →
           parse_tencent_line line = none)
       ∧ (∀ pre v0, splitOnce "=\"".toList line = some (pre, v0) →
           (splitOnChar '~' (rstripSet v0 ['"', ';'])).length < 36 →
           parse_tencent_line line = none))
    ∧ (∀ q : TencentQuote,
        q ∈ parse_tencent_content content ↔
          ∃ line ∈ splitOnChar ';' (trimWS content),
            parse_tencent_line line = some q ∧ 0 < q.current_price) := by
  constructor
  · intro line
    refine ⟨parse_line_skip_empty line, parse_line_skip_nodata line, ?_⟩
    · intro pre v0 hsplit hlen
      by_cases hskip :
          (containsSub "=\"\"".toList line || (trimWS line).isEmpty) = true
      · rcases Bool.or_eq_true_iff.mp hskip with hnd | hemp
        · exact parse_line_skip_nodata line hnd
        · exact parse_line_skip_empty line hemp
      · rw [parse_tencent_line, if_neg hskip]
        simp only [hsplit]
        rw [parse_tencent_fields]
        by_cases h35 : (splitOnChar '~' (rstripSet v0 ['"', ';'])).length < 35
        · rw [if_pos h35]
        · rw [if_neg h35]
          have : (splitOnChar '~' (rstripSet v0 ['"', ';'])).get? 35 = none := by
            rw [List.get?_eq_none]
            omega
          rw [this]
  · intro q
    rw [parse_tencent_content, List.mem_filterMap]
    constructor
    · rintro ⟨line, hline, hf⟩
      refine ⟨line, hline, ?_⟩
      rcases hp : parse_tencent_line line with _ | q'
      · rw [hp] at hf
        exact absurd hf (by simp)
      · rw [hp] at hf
        have hf' : (if 0 < q'.current_price then some q' else none) = some q := hf
        by_cases hpos : 0 < q'.current_price
        · rw [if_pos hpos] at hf'
          obtain rfl : q' = q := by
            simpa using hf'
          exact ⟨rfl, hpos⟩
        · rw [if_neg hpos] at hf'
          exact absurd hf' (by simp)
    · rintro ⟨line, hline, hp, hpos⟩
      refine ⟨line, hline, ?_⟩
      rw [hp]
      show (if 0 < q.current_price then some q else none) = some q
      rw [if_pos hpos]

/-- C5 witness: the skip clauses at a whitespace line and a no-data line,
and the acceptance characterization at a concrete two-line body. -/
theorem c5_line_filter_witness :
    parse_tencent_line "   ".toList = none
    ∧ parse_tencent_line "v_e=\"\"".toList = none
    ∧ demoQuote ∈ parse_tencent_content demoContent :=
  ⟨((c5_line_filter []).1 "   ".toList).1 (by decide),
    ((c5_line_filter []).1 "v_e=\"\"".toList).2.1 (by decide),
    ((c5_line_filter demoContent).2 demoQuote).mpr
      ⟨demoLine, by decide, by decide, by decide⟩⟩

/-- C6: for an accepted field list, the turnover equals the third
`/`-component of `parts[35]` when that component parses as a float and
defaults to 0.0 when the sub-field is absent or unparseable, while the rest
of the record is still returned intact (every other field keeps its parsed
value). -/
theorem c6_turnover (parts : List (List Char)) (p35 : List Char)
    (h35 : parts.get? 35 = some p35)
    (cp pc op vol ca cpc hi lo : Rat)
    (h3 : pyFloatOrZero (parts.getD 3 []) = some cp)
    (h4 : pyFloatOrZero (parts.getD 4 []) = some pc)
    (h5 : pyFloatOrZero (parts.getD 5 []) = some op)
    (h6 : pyFloatOrZero (parts.getD 6 []) = some vol)
    (h31 : pyFloatOrZero (parts.getD 31 []) = some ca)
    (h32 : pyFloatOrZero (parts.getD 32 []) = some cpc)
    (h33 : pyFloatOrZero (parts.getD 33 []) = some hi)
    (h34 : pyFloatOrZero (parts.getD 34 []) = some lo) :
    parse_tencent_fields parts = some
      { name := parts.getD 1 [],
        symbol := tencentSymbol35 (parts.getD 2 []),
        current_price := cp, prev_close := pc, open_price := op,
        volume := vol, change_amount := ca, change_pct := cpc,
        high_price := hi, low_price := lo,
        turnover :=
          if p35.contains '/' = true ∧ 3 ≤ (splitOnChar '/' p35).length then
            (pyFloat ((splitOnChar '/' p35).getD 2 [])).getD 0
          else 0 } := by
  have hlt : 35 < parts.length := by
    rcases List.get?_eq_some.mp h35 with ⟨h, _⟩
    exact h
  have hturn : tencentTurnover p35 =
      (if p35.contains '/' = true ∧ 3 ≤ (splitOnChar '/' p35).length then
        (pyFloat ((splitOnChar '/' p35).getD 2 [])).getD 0
      else 0) := by
    rw [tencentTurnover]
    by_cases h1 : '/' ∈ p35
    · by_cases h2 : 3 ≤ (splitOnChar '/' p35).length
      · simp [h1, h2]
      · simp [h1, h2]
    · have h1' : '/' ∉ p35 := h1
      simp [h1']
  rw [parse_tencent_fields, if_neg (by omega), h35]
  simp only [h3, h4, h5, h6, h31, h32, h33, h34, Option.bind_eq_bind,
    Option.some_bind, hturn]

/-- C6 witness: a 37-field list whose turnover sub-field `1/2/x` fails to
parse still yields a full record, with turnover 0. -/
theorem c6_turnover_witness :
    parse_tencent_fields
        (["600519".toList, ['N'], ['S'], ['2'], ['1'], ['1'], ['1'],
          [], [], [], [], [], [], [], [], [], [], [], [], [], [], [], [],
          [], [], [], [], [], [], [], [], ['1'], ['1'], ['1'], ['1'],
          "1/2/x".toList, ['z']]) = some
      { name := ['N'], symbol := tencentSymbol35 ['S'],
        current_price := 2, prev_close := 1, open_price := 1,
        volume := 1, change_amount := 1, change_pct := 1,
        high_price := 1, low_price := 1,
        turnover :=
          if ("1/2/x".toList).contains '/' = true
              ∧ 3 ≤ (splitOnChar '/' "1/2/x".toList).length then
            (pyFloat ((splitOnChar '/' "1/2/x".toList).getD 2 [])).getD 0
          else 0 } :=
  c6_turnover _ ("1/2/x".toList) (by decide) 2 1 1 1 1 1 1 1
    (by decide) (by decide) (by decide) (by decide)
    (by decide) (by decide) (by decide) (by decide)

/-! ## Execution pipeline — `AgentScheduler._run_agent` and
`server.trigger_agent`

The agent base class (`src/agents/base.py`) and the context dataclasses
are not under the modelled sources; only the slices the embedded pipeline
code reads are modelled.  An agent body is a function of the firing
ordinal (standing for the external world state met by that firing — the
network, the clock — which is what lets consecutive firings of one
registration behave differently) and the context; it returns the result
content or raises. -/

/-- One watchlist entry, as far as the embedded pipeline observes it. -/
structure StockConfig where
  symbol : List Char
  market : MarketCode
deriving DecidableEq, Repr

/-- Modelled from the spec: `ExecutionContext` (spec 3); the embedded
pipeline code reads only `watchlist` (the `ai_client` / `notifier` /
`settings` handles are opaque collaborators). -/
structure AgentContext where
  watchlist : List StockConfig
deriving DecidableEq, Repr

/-- Modelled from the spec: the agent-body contract `run(context) ->
content` (spec 4.6/9, `src/agents/base.py` not being among the modelled
sources), with `name` / `display_name` as used by `AgentScheduler`. -/
structure BaseAgent where
  name : String
  display_name : String
  run : Nat → AgentContext → Except String String

/-- The `self.agents` dict lookup `self.agents.get(agent_name)`. -/
def lookupAgent (agents : List (String × BaseAgent)) (name : String) :
    Option BaseAgent :=
  (agents.find? (fun p => p.1 = name)).map (·.2)

/-- The state of `AgentScheduler` read by `_run_agent` (scheduler.py
lines 16-24): the agent registry and the optional context builder. -/
structure SchedulerState where
  agents : List (String × BaseAgent)
  context_builder : Option (String → Except String AgentContext)

/-- Observable outcome of one `_run_agent` invocation.  `failedLogged` is
the `except Exception` branch (scheduler.py lines 105-106): the exception
— whether raised by the context builder or by the agent body — is logged
with full detail and the run is recorded as failed, and `_run_agent`
returns normally, so the outcome type has no exception channel at all. -/
inductive RunResult where
  | noContextBuilder
  | agentNotFound
  | failedLogged (msg : String)
  | completed (content : String)
deriving DecidableEq, Repr

/-- `AgentScheduler._run_agent` (scheduler.py lines 88-106): missing
builder and unknown agent are reported without executing; otherwise the
context is rebuilt and the body invoked inside the `try`. -/
def run_agent (sched : SchedulerState) (fireIdx : Nat) (agent_name : String) :
    RunResult :=
  match sched.context_builder with
  | none => .noContextBuilder
  | some builder =>
    match lookupAgent sched.agents agent_name with
    | none => .agentNotFound
    | some agent =>
      match builder agent_name with
      | .error e => .failedLogged e
      | .ok context =>
        match agent.run fireIdx context with
        | .error e => .failedLogged e
        | .ok content => .completed content

/-- `AgentScheduler.trigger_now` (scheduler.py lines 108-110): the manual
trigger of the scheduler reuses `_run_agent` verbatim. -/
def scheduler_trigger_now (sched : SchedulerState) (fireIdx : Nat)
    (agent_name : String) : RunResult :=
  run_agent sched fireIdx agent_name

/-- `server.trigger_agent` (server.py lines 191-205), the manual-trigger
path used by the agents API: registry lookup, fresh context build, then
the empty-watchlist short-circuit BEFORE the agent body is invoked;
failures propagate to the caller. -/
def trigger_agent (registry : List (String × BaseAgent))
    (build : String → Except String AgentContext) (fireIdx : Nat)
    (agent_name : String) : Except PyError String :=
  match lookupAgent registry agent_name with
  | none => .error (.valueError ("Agent " ++ agent_name ++ " 未注册实际实现"))
  | some agent =>
    match build agent_name with
    | .error e => .error (.valueError e)
    | .ok context =>
      if context.watchlist = [] then
        .ok ("Agent " ++ agent_name ++ " 没有关联的自选股")
      else
        match agent.run fireIdx context with
        | .error e => .error (.valueError e)
        | .ok content => .ok content

/-- C1: an exception raised by the agent body is caught at the `_run_agent`
boundary and converted into a failed, logged run outcome — `RunResult` has
no exception channel, so nothing propagates — and the next firing of the
same registration still executes the body: with the first firing injected
to fail, the second firing completes with the second body result. -/
theorem c1_run_agent_failure_contained (sched : SchedulerState)
    (builder : String → Except String AgentContext)
    (agent : BaseAgent) (name : String) (ctx : AgentContext)
    (e content : String)
    (hb : sched.context_builder = some builder)
    (ha : lookupAgent sched.agents name = some agent)
    (hctx : builder name = .ok ctx)
    (hfail : agent.run 0 ctx = .error e)
    (hok : agent.run 1 ctx = .ok content) :
    run_agent sched 0 name = .failedLogged e
    ∧ run_agent sched 1 name = .completed content := by
  constructor
  · simp only [run_agent, hb, ha, hctx, hfail]
  · simp only [run_agent, hb, ha, hctx, hok]

/-- A concrete scheduler whose single agent fails on its first firing and
succeeds on the second. -/
def demoFlakyAgent : BaseAgent :=
  { name := "daily_report", display_name := "盘后日报",
    run := fun i _ => if i = 0 then .error "boom" else .ok "report" }

/-- Scheduler state holding `demoFlakyAgent` with a builder that returns a
one-entry watchlist. -/
def demoSched : SchedulerState :=
  { agents := [("daily_report", demoFlakyAgent)],
    context_builder := some fun _ => .ok ⟨[⟨"600519".toList, .CN⟩]⟩ }

/-- C1 witness: two consecutive firings of the concrete flaky agent. -/
theorem c1_run_agent_failure_contained_witness :
    run_agent demoSched 0 "daily_report" = .failedLogged "boom"
    ∧ run_agent demoSched 1 "daily_report" = .completed "report" :=
  c1_run_agent_failure_contained demoSched _ demoFlakyAgent "daily_report"
    ⟨[⟨"600519".toList, .CN⟩]⟩ "boom" "report" rfl rfl rfl rfl rfl

/-- A scheduler whose builder yields an EMPTY watchlist and whose agent
body reports its own invocation by raising. -/
def demoEmptySched : SchedulerState :=
  { agents := [("daily_report",
      { name := "daily_report", display_name := "盘后日报",
        run := fun _ _ => .error "agent body invoked" })],
    context_builder := some fun _ => .ok ⟨[]⟩ }

/-- C9 counterexample: the claim says every execution of the per-run
pipeline — scheduled firing or manual trigger alike — short-circuits with
a success outcome on an empty watchlist without invoking the agent body;
but the scheduled path `_run_agent` performs no watchlist check, and here
the body of a scheduled firing with an empty watchlist runs (and fails the
run), including via `AgentScheduler.trigger_now`, which shares that path. -/
theorem c9_counterexample :
    run_agent demoEmptySched 0 "daily_report"
        = .failedLogged "agent body invoked"
    ∧ scheduler_trigger_now demoEmptySched 0 "daily_report"
        = .failedLogged "agent body invoked" := by
  constructor <;> rfl

/-- C9 (amended): only the manual-trigger path `server.trigger_agent`
short-circuits on an empty watchlist — returning the explanatory success
message without invoking the agent body — while the scheduled path
`_run_agent` invokes the body regardless, its outcome being exactly the
body's outcome. -/
theorem c9_empty_watchlist (registry : List (String × BaseAgent))
    (build : String → Except String AgentContext) (fireIdx : Nat)
    (name : String) (agent : BaseAgent) (ctx : AgentContext)
    (hreg : lookupAgent registry name = some agent)
    (hbuild : build name = .ok ctx)
    (hempty : ctx.watchlist = []) :
    trigger_agent registry build fireIdx name
        = .ok ("Agent " ++ name ++ " 没有关联的自选股")
    ∧ (∀ sched : SchedulerState,
        sched.context_builder = some build →
        lookupAgent sched.agents name = some agent →
        run_agent sched fireIdx name =
          match agent.run fireIdx ctx with
          | .error e => .failedLogged e
          | .ok content => .completed content) := by
  constructor
  · simp only [trigger_agent, hreg, hbuild]
    rw [if_pos hempty]
  · intro sched hb ha
    simp only [run_agent, hb, ha, hbuild]

/-- C9 witness: the amended theorem at a concrete registry and builder
with an empty watchlist. -/
theorem c9_empty_watchlist_witness :
    trigger_agent [("daily_report", demoFlakyAgent)]
        (fun _ => .ok ⟨[]⟩) 0 "daily_report"
      = .ok ("Agent " ++ "daily_report" ++ " 没有关联的自选股") :=
  (c9_empty_watchlist [("daily_report", demoFlakyAgent)]
    (fun _ => .ok ⟨[]⟩) 0 "daily_report" demoFlakyAgent ⟨[]⟩
    rfl rfl rfl).1

/-! ## Engine startup — `server.build_scheduler`

`build_scheduler` (server.py lines 166-188) iterates the enabled agent
configurations and, for each one with a registered implementation and a
nonempty schedule, calls `sched.set_context(context)` — a method
`AgentScheduler` does not define — and then
`sched.register(agent_instance, cron=cfg.schedule)` — a keyword `register`
does not accept.  Python attribute lookup and keyword binding are modelled
by the class's attribute table and `register`'s parameter list, both read
off scheduler.py. -/

/-- The attributes the `AgentScheduler` class defines (scheduler.py
lines 13-125): instance fields set in `__init__` and the methods. -/
def agentSchedulerAttrs : List String :=
  ["scheduler", "agents", "context_builder", "set_context_builder",
   "register", "_parse_cron", "_parse_interval", "_run_agent",
   "trigger_now", "start", "shutdown"]

/-- The parameter names of `AgentScheduler.register` (scheduler.py
line 26). -/
def registerParams : List String :=
  ["self", "agent", "schedule"]

/-- The names with registered implementations in `AGENT_REGISTRY`
(server.py lines 161-163). -/
def AGENT_REGISTRY_NAMES : List String :=
  ["daily_report"]

/-- The per-config loop of `build_scheduler` (server.py lines 173-184).
Returns the ids of the jobs armed so far paired with the exception, if
any, that aborted the loop.  A config whose name has no registered
implementation or whose schedule is falsy is skipped; otherwise
`sched.set_context(context)` resolves against the class attributes
(raising `AttributeError` when absent), and only then would
`register(agent_instance, cron=...)` bind its keywords (raising
`TypeError` on the unknown keyword `cron`). -/
def buildSchedulerGo :
    List AgentConfigRow → List String → List String × Option PyError
  | [], jobs => (jobs, none)
  | cfg :: rest, jobs =>
    if cfg.name ∉ AGENT_REGISTRY_NAMES then buildSchedulerGo rest jobs
    else if cfg.schedule = "" then buildSchedulerGo rest jobs
    else if "set_context" ∈ agentSchedulerAttrs then
      if "cron" ∈ registerParams then
        buildSchedulerGo rest (jobs ++ [cfg.name])
      else
        (jobs, some (.typeError
          "register() got an unexpected keyword argument: cron"))
    else
      (jobs, some (.attributeError
        "AgentScheduler object has no attribute set_context"))

/-- `server.build_scheduler` (server.py lines 166-188): query the enabled
configs and run the registration loop against a fresh `AgentScheduler`. -/
def build_scheduler (configs : List AgentConfigRow) :
    List String × Option PyError :=
  buildSchedulerGo (configs.filter (fun c => c.enabled)) []

theorem buildSchedulerGo_error (l : List AgentConfigRow) (jobs : List String)
    (h : ∃ cfg ∈ l, cfg.name ∈ AGENT_REGISTRY_NAMES ∧ cfg.schedule ≠ "") :
    buildSchedulerGo l jobs
      = (jobs, some (.attributeError
          "AgentScheduler object has no attribute set_context")) := by
  induction l generalizing jobs with
  | nil => simp at h
  | cons cfg rest ih =>
    rcases h with ⟨c, hc, hq⟩
    rcases List.mem_cons.mp hc with rfl | hcrest
    · rw [buildSchedulerGo, if_neg (not_not_intro hq.1), if_neg hq.2,
        if_neg (by decide)]
    · rw [buildSchedulerGo]
      by_cases h1 : cfg.name ∉ AGENT_REGISTRY_NAMES
      · rw [if_pos h1]
        exact ih jobs ⟨c, hcrest, hq⟩
      · rw [if_neg h1]
        by_cases h2 : cfg.schedule = ""
        · rw [if_pos h2]
          exact ih jobs ⟨c, hcrest, hq⟩
        · rw [if_neg h2, if_neg (by decide)]

/-- C10: whenever the database holds at least one enabled agent config
with a registered implementation and a nonempty schedule,
`build_scheduler` raises (`AttributeError` at the `sched.set_context`
call; `register`'s signature would reject the `cron` keyword even if it
got that far) before arming any timer, so engine start never reaches
`scheduler.start` with a registered job. -/
theorem c10_build_scheduler_raises (configs : List AgentConfigRow)
    (h : ∃ cfg ∈ configs, cfg.enabled = true
          ∧ cfg.name ∈ AGENT_REGISTRY_NAMES ∧ cfg.schedule ≠ "") :
    build_scheduler configs
      = ([], some (.attributeError
          "AgentScheduler object has no attribute set_context"))
    ∧ "set_context" ∉ agentSchedulerAttrs
    ∧ "cron" ∉ registerParams := by
  refine ⟨?_, by decide, by decide⟩
  rcases h with ⟨cfg, hc, hen, hq⟩
  exact buildSchedulerGo_error _ []
    ⟨cfg, List.mem_filter.mpr ⟨hc, by simpa using hen⟩, hq⟩

/-- C10 witness: the seeded configurations themselves — `daily_report` is
enabled, registered and scheduled — make `build_scheduler` raise with no
job armed. -/
theorem c10_build_scheduler_raises_witness :
    build_scheduler seedAgents
      = ([], some (.attributeError
          "AgentScheduler object has no attribute set_context")) :=
  (c10_build_scheduler_raises seedAgents
    ⟨{ name := "daily_report", display_name := "盘后日报",
       description := "每日收盘后生成自选股日报，包含大盘概览、个股分析和明日关注",
       enabled := true, schedule := "30 15 * * 1-5" },
      by decide, rfl, by decide, by decide⟩).1

end PanWatch
